import Mathlib

/-!
Shallow embedding of the twilight-interactions command parsing and
derivation pipeline.

The runtime side (crate `twilight-interactions`) is embedded from
`src/command/command_model.rs` and `src/error.rs`: wire option values,
option constraint data, the `CommandOption` coercions for `String`,
`i64` and `f64`, and `CommandInputData.from_option`.

The derive side (crate `twilight-interactions-derive`) generates Rust
code; we embed the *behaviour of the generated code* as functions
parametrised by the parsed field/variant descriptions, mirroring
`command/model/command_model.rs`, `command/subcommand/command_model.rs`,
`command/model/create_command.rs` (`check_fields_order`),
`parse/parsers.rs` (`CommandName::parse_attribute`),
`option/parse.rs` / `option/attributes.rs` (choice variant parsing),
`option/command_option.rs` (choice value lookup) and
`modal/create_modal.rs` (modal derivation).

Rust's `f64` is modelled as `Rat`; machine integers (`i64`) as `Int`
(no arithmetic in the embedded code can overflow: only comparisons are
performed). A Rust panic (`todo!()`) is modelled as an explicit
`panic` result constructor, distinct from returned errors.
-/

namespace Twilight

/-- Wire option kinds (`CommandOptionType` of twilight-model). -/
inductive CommandOptionType where
  | subCommand
  | subCommandGroup
  | string
  | integer
  | boolean
  | user
  | channel
  | role
  | mentionable
  | number
  | attachment
  deriving DecidableEq, Repr

/-- Wire option values (`CommandOptionValue` of twilight-model).
`CommandDataOption` is a (name, value) pair; we use `String × _` to
avoid a mutual inductive. Snowflake ids are modelled as `Nat`. -/
inductive CommandOptionValue where
  | subCommand (opts : List (String × CommandOptionValue))
  | subCommandGroup (opts : List (String × CommandOptionValue))
  | string (s : String)
  | integer (i : Int)
  | boolean (b : Bool)
  | user (id : Nat)
  | channel (id : Nat)
  | role (id : Nat)
  | mentionable (id : Nat)
  | number (q : Rat)
  | attachment (id : Nat)
  | focused (s : String) (k : CommandOptionType)

/-- A named option as received on the wire (`CommandDataOption`). -/
abbrev CommandDataOption := String × CommandOptionValue

/-- Name accessor of a `CommandDataOption`. -/
def CommandDataOption.name (o : CommandDataOption) : String := o.1

/-- Value accessor of a `CommandDataOption`. -/
def CommandDataOption.value (o : CommandDataOption) : CommandOptionValue := o.2

/-- `CommandOptionValue::kind`. -/
def CommandOptionValue.kind : CommandOptionValue → CommandOptionType
  | .subCommand _ => .subCommand
  | .subCommandGroup _ => .subCommandGroup
  | .string _ => .string
  | .integer _ => .integer
  | .boolean _ => .boolean
  | .user _ => .user
  | .channel _ => .channel
  | .role _ => .role
  | .mentionable _ => .mentionable
  | .number _ => .number
  | .attachment _ => .attachment
  | .focused _ k => k

/-- Resolved-entity table (`InteractionDataResolved`): keyed lookups from
snowflake ids to entity records. None of the embedded operations below
inspects its contents (only `String`/`i64` coercions are exercised), so
entity records are kept abstract as their id. -/
structure InteractionDataResolved where
  users : List Nat := []
  roles : List Nat := []
  channels : List Nat := []
  attachments : List Nat := []
  deriving DecidableEq, Repr

/-- `ParseOptionErrorType` from `src/error.rs`. -/
inductive ParseOptionErrorType where
  | invalidType (t : CommandOptionType)
  | invalidChoice (s : String)
  | integerOutOfRange (i : Int)
  | numberOutOfRange (q : Rat)
  | invalidChannelType (t : Nat)
  | lookupFailed (id : Nat)
  | requiredField
  | unknownField
  | unknownSubcommand
  deriving DecidableEq, Repr

/-- `ParseOptionError` from `src/error.rs`: the field name that caused
the error paired with the error kind. -/
structure ParseOptionError where
  field : String
  kind : ParseOptionErrorType
  deriving DecidableEq, Repr

/-- `ParseError` from `src/error.rs`. -/
inductive ParseError where
  | emptyOptions
  | option (e : ParseOptionError)
  deriving DecidableEq, Repr

/-- Numeric bound value (`CommandOptionValue` of twilight-model's
command module, used for `max_value` / `min_value`). -/
inductive NumberCommandOptionValue where
  | integer (i : Int)
  | number (q : Rat)
  deriving DecidableEq, Repr

/-- `CommandOptionData` from `src/command/internal.rs`: the constraint
bundle passed to each `CommandOption::from_option` call. -/
structure CommandOptionData where
  channelTypes : Option (List Nat) := none
  maxValue : Option NumberCommandOptionValue := none
  minValue : Option NumberCommandOptionValue := none
  maxLength : Option Nat := none
  minLength : Option Nat := none
  deriving DecidableEq, Repr

/-- Result of a `CommandOption::from_option` call. Rust returns
`Result<T, ParseOptionErrorType>` but may also unwind via `todo!()`;
the `panic` constructor records that unwinding outcome. -/
inductive OptResult (α : Type) where
  | ok (a : α)
  | err (e : ParseOptionErrorType)
  | panic
  deriving DecidableEq, Repr

/-- Map over the success value of an `OptResult`. -/
def OptResult.map {α β : Type} (f : α → β) : OptResult α → OptResult β
  | .ok a => .ok (f a)
  | .err e => .err e
  | .panic => .panic

/-- `<String as CommandOption>::from_option`
(`src/command/command_model.rs` lines 443-468). The length checks use
`value.len()`, i.e. the UTF-8 byte length, and their violation branches
are `todo!()`: an unfinished panic, not a returned error. -/
def String.from_option (value : CommandOptionValue) (data : CommandOptionData) :
    OptResult String :=
  match value with
  | .string v =>
      if (match data.minLength with
          | some m => decide (v.utf8ByteSize < m)
          | none => false) then
        .panic
      else if (match data.maxLength with
          | some m => decide (m < v.utf8ByteSize)
          | none => false) then
        .panic
      else
        .ok v
  | other => .err (.invalidType other.kind)

/-- `<i64 as CommandOption>::from_option`
(`src/command/command_model.rs`): integer bounds are checked only when
the declared bound is itself an integer bound. -/
def i64.from_option (value : CommandOptionValue) (data : CommandOptionData) :
    OptResult Int :=
  match value with
  | .integer v =>
      if (match data.minValue with
          | some (.integer m) => decide (v < m)
          | _ => false) then
        .err (.integerOutOfRange v)
      else if (match data.maxValue with
          | some (.integer m) => decide (m < v)
          | _ => false) then
        .err (.integerOutOfRange v)
      else
        .ok v
  | other => .err (.invalidType other.kind)

/-- `<f64 as CommandOption>::from_option`
(`src/command/command_model.rs` lines 507-532): number bounds are
checked only when the declared bound is itself a number bound; a
violation is a number-out-of-range error carrying the value. -/
def f64.from_option (value : CommandOptionValue) (data : CommandOptionData) :
    OptResult Rat :=
  match value with
  | .number v =>
      if (match data.minValue with
          | some (.number m) => decide (v < m)
          | _ => false) then
        .err (.numberOutOfRange v)
      else if (match data.maxValue with
          | some (.number m) => decide (m < v)
          | _ => false) then
        .err (.numberOutOfRange v)
      else
        .ok v
  | other => .err (.invalidType other.kind)

/-- Input to a generated `CommandModel::from_interaction`
(`CommandInputData` from `src/command/command_model.rs`). -/
structure CommandInputData where
  options : List CommandDataOption
  resolved : Option InteractionDataResolved

/-- `CommandInputData::from_option`
(`src/command/command_model.rs` lines 328-343): reinterpret a wire
value as a nested option list; any non sub-command-shaped value is an
invalid-type error. -/
def CommandInputData.from_option (value : CommandOptionValue)
    (resolved : Option InteractionDataResolved) :
    Except ParseOptionErrorType CommandInputData :=
  match value with
  | .subCommand options => .ok ⟨options, resolved⟩
  | .subCommandGroup options => .ok ⟨options, resolved⟩
  | other => .error (.invalidType other.kind)

/-- Field classification (`FieldType` from
`derive/src/command/model/parse.rs`). -/
inductive FieldType where
  | autocomplete
  | optional
  | required
  deriving DecidableEq, Repr

/-- `FieldType::required` from `derive/src/command/model/parse.rs` (named
`isRequired` here since `required` is taken by the constructor). -/
def FieldType.isRequired : FieldType → Bool
  | .required => true
  | .autocomplete | .optional => false

/-- Runtime view of one struct field as used by the code generated by
`impl_command_model` (`derive/src/command/model/command_model.rs`):
the field identifier, the resolved match name
(`attributes.name_default(ident)`, i.e. the rename if present else the
identifier), the classification, the constraint bundle built from the
field attributes, and the field type's `CommandOption::from_option`
coercion (the value-coercion contract, dispatched by trait in the
generated code). `δ` is the dynamic type of parsed field values. -/
structure StructFieldRT (δ : Type) where
  ident : String
  name : String
  kind : FieldType
  data : CommandOptionData
  parse : CommandOptionValue → CommandOptionData →
    Option InteractionDataResolved → OptResult δ

/-- Result of a generated `from_interaction`: success, returned
`ParseError`, or a panic propagated from a coercion. -/
inductive ParseResult (α : Type) where
  | ok (a : α)
  | err (e : ParseError)
  | panic

/-- Map over the success value of a `ParseResult`. -/
def ParseResult.map {α β : Type} (f : α → β) : ParseResult α → ParseResult β
  | .ok a => .ok (f a)
  | .err e => .err e
  | .panic => .panic

/-- The generated `match &*__opt.name { ... }` dispatch: the match arms
are emitted in field declaration order, so the first field whose
resolved name equals the option name wins. -/
def findField {δ : Type} (fields : List (StructFieldRT δ)) (name : String) :
    Option (StructFieldRT δ) :=
  fields.find? (fun f => f.name == name)

/-- Field accumulator of the generated parser: one `Option` slot per
field identifier (`let mut #ident = None;`). -/
def Acc (δ : Type) := String → Option δ

/-- The option-consuming loop of the generated struct parser
(`for __opt in __data.options { match &*__opt.name { ... } }`):
a matched option is coerced via the field's contract and accumulated; a
coercion error is wrapped with the field's resolved name and returned
immediately; an unmatched name is skipped in autocomplete (partial)
mode and is an unknown-field error naming the option otherwise. -/
def runLoop {δ : Type} (fields : List (StructFieldRT δ)) (autocomplete : Bool)
    (resolved : Option InteractionDataResolved) :
    List CommandDataOption → Acc δ → ParseResult (Acc δ)
  | [], acc => .ok acc
  | o :: rest, acc =>
    match findField fields o.name with
    | some f =>
      match f.parse o.value f.data resolved with
      | .ok v =>
        runLoop fields autocomplete resolved rest
          (fun i => if i = f.ident then some v else acc i)
      | .err k => .err (.option ⟨f.name, k⟩)
      | .panic => .panic
    | none =>
      if autocomplete then runLoop fields autocomplete resolved rest acc
      else .err (.option ⟨o.name, .unknownField⟩)

/-- Final value of one field in the constructed struct. -/
inductive FieldFinal (δ : Type) where
  | reqVal (v : δ)
  | optVal (v : Option δ)
  | autoVal (v : Option δ)

/-- The generated struct constructor (`Self { #(#fields_constructor),* }`,
from `field_constructor` in `derive/src/command/model/command_model.rs`):
evaluated in field declaration order; a `Required` field with no
accumulated value returns a required-field error naming the field
identifier; an `Optional` field takes its accumulator as is (absent when
never filled); an `Autocomplete` field with no value defaults to the
not-yet-focused sentinel (`AutocompleteValue::None`, here
`autoVal none`). -/
def construct {δ : Type} : List (StructFieldRT δ) → Acc δ →
    ParseResult (List (String × FieldFinal δ))
  | [], _ => .ok []
  | f :: rest, acc =>
    match f.kind with
    | .required =>
      match acc f.ident with
      | some v => (construct rest acc).map (fun l => (f.ident, .reqVal v) :: l)
      | none => .err (.option ⟨f.ident, .requiredField⟩)
    | .optional =>
      (construct rest acc).map (fun l => (f.ident, .optVal (acc f.ident)) :: l)
    | .autocomplete =>
      (construct rest acc).map (fun l => (f.ident, .autoVal (acc f.ident)) :: l)

/-- The generated `CommandModel::from_interaction` for a struct model
(`impl_command_model` in `derive/src/command/model/command_model.rs`):
initialise the accumulator, run the option loop, then construct. -/
def from_interaction {δ : Type} (fields : List (StructFieldRT δ))
    (autocomplete : Bool) (data : CommandInputData) :
    ParseResult (List (String × FieldFinal δ)) :=
  match runLoop fields autocomplete data.resolved data.options (fun _ => none) with
  | .ok acc => construct fields acc
  | .err e => .err e
  | .panic => .panic

/-- One variant of a generated subcommand enum
(`derive/src/command/subcommand/command_model.rs`): its declared
subcommand name and the inner type's `from_interaction` composed with
the variant injection (`Ok(Self::#ident(..))`). -/
structure EnumVariantRT (α : Type) where
  name : String
  parse : CommandInputData → ParseResult α

/-- The generated `CommandModel::from_interaction` for a subcommand enum
(`impl_command_model` in `derive/src/command/subcommand/command_model.rs`):
an empty option list is an empty-options error; otherwise
`swap_remove(0)` takes the first option, whose name is matched against
each variant's declared name (arms in declaration order); on a match the
option's value is reinterpreted as a nested option list via
`CommandInputData::from_option` (an invalid-type error is wrapped with
the variant name) and the variant's inner parser is run; on no match an
unknown-subcommand error names the option. -/
def enum_from_interaction {α : Type} (variants : List (EnumVariantRT α))
    (data : CommandInputData) : ParseResult α :=
  match data.options with
  | [] => .err .emptyOptions
  | o :: _ =>
    match variants.find? (fun v => v.name == o.name) with
    | some v =>
      match CommandInputData.from_option o.value data.resolved with
      | .ok input => v.parse input
      | .error e => .err (.option ⟨v.name, e⟩)
    | none => .err (.option ⟨o.name, .unknownSubcommand⟩)

/-- Value-coercion contract of a `String`-typed field: coerce via
`<String as CommandOption>::from_option` and embed into the dynamic
value type. -/
def stringCoerce : CommandOptionValue → CommandOptionData →
    Option InteractionDataResolved → OptResult CommandOptionValue :=
  fun v d _ => (String.from_option v d).map CommandOptionValue.string

/-- Value-coercion contract of an `i64`-typed field. -/
def intCoerce : CommandOptionValue → CommandOptionData →
    Option InteractionDataResolved → OptResult CommandOptionValue :=
  fun v d _ => (i64.from_option v d).map CommandOptionValue.integer

/-- The required string field `text` of the concrete scenario model. -/
def textField : StructFieldRT CommandOptionValue :=
  { ident := "text", name := "text", kind := .required, data := {},
    parse := stringCoerce }

/-- The optional integer field `number` of the concrete scenario model
(one `Option` layer stripped by the classifier; inner coercion `i64`). -/
def numberField : StructFieldRT CommandOptionValue :=
  { ident := "number", name := "number", kind := .optional, data := {},
    parse := intCoerce }

/-- A required field whose accumulator slot is empty makes `construct`
fail with a required-field error naming such a field. -/
theorem construct_required_missing {δ : Type} (fields : List (StructFieldRT δ))
    (acc : Acc δ) :
    (∃ f ∈ fields, f.kind = .required ∧ acc f.ident = none) →
    ∃ g ∈ fields, g.kind = .required ∧ acc g.ident = none ∧
      construct fields acc = .err (.option ⟨g.ident, .requiredField⟩) := by
  induction fields with
  | nil => intro h; simp at h
  | cons f rest ih =>
    intro h
    cases hk : f.kind with
    | required =>
      cases ha : acc f.ident with
      | none =>
        exact ⟨f, List.mem_cons_self _ _, hk, ha, by simp [construct, hk, ha]⟩
      | some v =>
        have h' : ∃ g ∈ rest, g.kind = .required ∧ acc g.ident = none := by
          obtain ⟨f₀, hf₀, hk₀, ha₀⟩ := h
          rcases List.mem_cons.mp hf₀ with rfl | hmem
          · rw [ha₀] at ha; simp at ha
          · exact ⟨f₀, hmem, hk₀, ha₀⟩
        obtain ⟨g, hg, hkg, hag, hcg⟩ := ih h'
        exact ⟨g, List.mem_cons_of_mem _ hg, hkg, hag, by
          simp [construct, hk, ha, hcg, ParseResult.map]⟩
    | optional =>
      have h' : ∃ g ∈ rest, g.kind = .required ∧ acc g.ident = none := by
        obtain ⟨f₀, hf₀, hk₀, ha₀⟩ := h
        rcases List.mem_cons.mp hf₀ with rfl | hmem
        · rw [hk] at hk₀; simp at hk₀
        · exact ⟨f₀, hmem, hk₀, ha₀⟩
      obtain ⟨g, hg, hkg, hag, hcg⟩ := ih h'
      exact ⟨g, List.mem_cons_of_mem _ hg, hkg, hag, by
        simp [construct, hk, hcg, ParseResult.map]⟩
    | autocomplete =>
      have h' : ∃ g ∈ rest, g.kind = .required ∧ acc g.ident = none := by
        obtain ⟨f₀, hf₀, hk₀, ha₀⟩ := h
        rcases List.mem_cons.mp hf₀ with rfl | hmem
        · rw [hk] at hk₀; simp at hk₀
        · exact ⟨f₀, hmem, hk₀, ha₀⟩
      obtain ⟨g, hg, hkg, hag, hcg⟩ := ih h'
      exact ⟨g, List.mem_cons_of_mem _ hg, hkg, hag, by
        simp [construct, hk, hcg, ParseResult.map]⟩

/-- When every required field has an accumulated value, `construct`
succeeds and every optional field is given its accumulator content
(absent when never filled). -/
theorem construct_all_required_present {δ : Type}
    (fields : List (StructFieldRT δ)) (acc : Acc δ) :
    (∀ f ∈ fields, f.kind = .required → (acc f.ident).isSome) →
    ∃ l, construct fields acc = .ok l ∧
      ∀ f ∈ fields, f.kind = .optional →
        (f.ident, FieldFinal.optVal (acc f.ident)) ∈ l := by
  induction fields with
  | nil => intro _; exact ⟨[], rfl, by simp⟩
  | cons f rest ih =>
    intro h
    obtain ⟨l, hl, hopt⟩ := ih (fun g hg hkg => h g (List.mem_cons_of_mem _ hg) hkg)
    cases hk : f.kind with
    | required =>
      have hs := h f (List.mem_cons_self _ _) hk
      cases ha : acc f.ident with
      | none => rw [ha] at hs; simp at hs
      | some v =>
        refine ⟨(f.ident, .reqVal v) :: l, by simp [construct, hk, ha, hl, ParseResult.map], ?_⟩
        intro g hg hkg
        rcases List.mem_cons.mp hg with rfl | hmem
        · rw [hk] at hkg; simp at hkg
        · exact List.mem_cons_of_mem _ (hopt g hmem hkg)
    | optional =>
      refine ⟨(f.ident, .optVal (acc f.ident)) :: l,
        by simp [construct, hk, hl, ParseResult.map], ?_⟩
      intro g hg hkg
      rcases List.mem_cons.mp hg with rfl | hmem
      · exact List.mem_cons_self _ _
      · exact List.mem_cons_of_mem _ (hopt g hmem hkg)
    | autocomplete =>
      refine ⟨(f.ident, .autoVal (acc f.ident)) :: l,
        by simp [construct, hk, hl, ParseResult.map], ?_⟩
      intro g hg hkg
      rcases List.mem_cons.mp hg with rfl | hmem
      · rw [hk] at hkg; simp at hkg
      · exact List.mem_cons_of_mem _ (hopt g hmem hkg)

/-- The required string field `option` of the scenario subcommand's
inner model. -/
def optionField : StructFieldRT CommandOptionValue :=
  { ident := "option", name := "option", kind := .required, data := {},
    parse := stringCoerce }

/-- Scenario subcommand variant `"one"`: parses its inner model and
injects into the enum (variant identifier paired with the inner
result). -/
def oneVariant : EnumVariantRT (String × List (String × FieldFinal CommandOptionValue)) :=
  { name := "one",
    parse := fun input =>
      (from_interaction [optionField] false input).map (fun r => ("One", r)) }

/-- Scenario subcommand variant `"group"`. -/
def groupVariant : EnumVariantRT (String × List (String × FieldFinal CommandOptionValue)) :=
  { name := "group",
    parse := fun input =>
      (from_interaction [optionField] false input).map (fun r => ("Group", r)) }

/-- C1: the claim says a string wire value violating a declared
`min_length`/`max_length` bound fails by *returning* a structured parse
error. The code (`<String as CommandOption>::from_option`,
`src/command/command_model.rs` lines 443-468) instead reaches an
unfinished `todo!()` and panics: evaluated at a two-byte string against
`min_length = 5` (and a six-byte string against `max_length = 3`), the
coercion panics rather than returning an error value. -/
theorem string_length_bound_hits_todo_panic :
    String.from_option (.string "ab") { minLength := some 5 } = .panic ∧
    String.from_option (.string "abcdef") { maxLength := some 3 } = .panic :=
  ⟨rfl, rfl⟩

/-- C2: a struct model with required string field `text` and optional
integer field `number`: input `[{text: "hello world"}, {number: 42}]`
parses to `{text: "hello world", number: Some(42)}`; input
`[{number: 42}]` fails with a required-field error naming `text`. In
general, a required field with no accumulated value makes `construct`
fail with a required-field error naming such a field, and when all
required fields accumulated a value, parsing succeeds with every
optional field defaulting to its (possibly absent) accumulator. -/
theorem struct_required_optional_fields :
    from_interaction [textField, numberField] false
        ⟨[("text", .string "hello world"), ("number", .integer 42)], none⟩
      = .ok [("text", .reqVal (.string "hello world")),
             ("number", .optVal (some (.integer 42)))] ∧
    from_interaction [textField, numberField] false
        ⟨[("number", .integer 42)], none⟩
      = .err (.option ⟨"text", .requiredField⟩) ∧
    (∀ (δ : Type) (fields : List (StructFieldRT δ)) (acc : Acc δ),
      (∃ f ∈ fields, f.kind = .required ∧ acc f.ident = none) →
      ∃ g ∈ fields, g.kind = .required ∧ acc g.ident = none ∧
        construct fields acc = .err (.option ⟨g.ident, .requiredField⟩)) ∧
    (∀ (δ : Type) (fields : List (StructFieldRT δ)) (acc : Acc δ),
      (∀ f ∈ fields, f.kind = .required → (acc f.ident).isSome) →
      ∃ l, construct fields acc = .ok l ∧
        ∀ f ∈ fields, f.kind = .optional →
          (f.ident, FieldFinal.optVal (acc f.ident)) ∈ l) :=
  ⟨rfl, rfl, fun _ => construct_required_missing,
    fun _ => construct_all_required_present⟩

/-- Witness for C2's general clauses at a concrete input: the singleton
field list `[textField]` with an empty accumulator yields the
required-field error naming `text`; with a filled accumulator parsing
succeeds. -/
theorem struct_required_optional_fields_witness :
    (∃ g ∈ [textField], g.kind = .required ∧
      (fun _ => (none : Option CommandOptionValue)) g.ident = none ∧
      construct [textField] (fun _ => none)
        = .err (.option ⟨g.ident, .requiredField⟩)) ∧
    (∃ l, construct [numberField]
        (fun _ => (none : Option CommandOptionValue)) = .ok l ∧
      ∀ f ∈ [numberField], f.kind = .optional →
        (f.ident, FieldFinal.optVal none) ∈ l) :=
  ⟨struct_required_optional_fields.2.2.1 CommandOptionValue [textField]
      (fun _ => none) ⟨textField, List.mem_singleton.mpr rfl, rfl, rfl⟩,
    struct_required_optional_fields.2.2.2 CommandOptionValue [numberField]
      (fun _ => none)
      (by intro f hf hk; rw [List.mem_singleton.mp hf] at hk; simp [numberField] at hk)⟩

/-- C8: in the generated struct parser's option loop, an option whose
name matches no field's resolved name is silently skipped when the
model is in autocomplete (partial) mode, and otherwise fails
immediately with an unknown-field error naming the unmatched option. -/
theorem struct_unknown_field_behavior :
    ∀ (δ : Type) (fields : List (StructFieldRT δ))
      (resolved : Option InteractionDataResolved)
      (o : CommandDataOption) (rest : List CommandDataOption) (acc : Acc δ),
      findField fields o.name = none →
      runLoop fields true resolved (o :: rest) acc
          = runLoop fields true resolved rest acc ∧
      runLoop fields false resolved (o :: rest) acc
          = .err (.option ⟨o.name, .unknownField⟩) := by
  intro δ fields resolved o rest acc h
  constructor <;> simp [runLoop, h]

/-- Witness for C8 at a concrete input: the option named `bogus`
matches no field of `[textField]`; it is skipped in autocomplete mode
and is an unknown-field error otherwise. -/
theorem struct_unknown_field_behavior_witness :
    runLoop [textField] true none [(("bogus" : String), CommandOptionValue.integer 1)]
        (fun _ => none)
      = runLoop [textField] true none [] (fun _ => none) ∧
    runLoop [textField] false none [(("bogus" : String), CommandOptionValue.integer 1)]
        (fun _ => none)
      = .err (.option ⟨"bogus", .unknownField⟩) :=
  struct_unknown_field_behavior CommandOptionValue [textField] none
    ("bogus", CommandOptionValue.integer 1) [] (fun _ => none) rfl

/-- C3: the generated subcommand enum parser: an empty option list is
an empty-options error; otherwise the first option's name selects a
variant: on a match the value is reinterpreted as a nested option list
(a non sub-command-shaped value is an invalid-type error) and parsing
recurses into the variant's inner model; on no match the parse fails
with an unknown-subcommand error naming the option. Concretely, with
variants `"one"` and `"group"`:
`[{one: SubCommand([{option: "test"}])}]` parses to the `One` variant
with `option == "test"`; a string-valued `one` is an invalid-type
error; `[{unknown: ...}]` is an unknown-subcommand error naming
`unknown`. -/
theorem subcommand_enum_dispatch :
    (∀ (α : Type) (variants : List (EnumVariantRT α))
        (resolved : Option InteractionDataResolved),
      enum_from_interaction variants ⟨[], resolved⟩ = .err .emptyOptions) ∧
    enum_from_interaction [oneVariant, groupVariant]
        ⟨[("one", .subCommand [("option", .string "test")])], none⟩
      = .ok ("One", [("option", .reqVal (.string "test"))]) ∧
    enum_from_interaction [oneVariant, groupVariant]
        ⟨[("one", .string "test")], none⟩
      = .err (.option ⟨"one", .invalidType .string⟩) ∧
    (∀ (α : Type) (variants : List (EnumVariantRT α)) (o : CommandDataOption)
        (rest : List CommandDataOption) (resolved : Option InteractionDataResolved),
      variants.find? (fun v => v.name == o.name) = none →
      enum_from_interaction variants ⟨o :: rest, resolved⟩
        = .err (.option ⟨o.name, .unknownSubcommand⟩)) ∧
    enum_from_interaction [oneVariant, groupVariant]
        ⟨[("unknown", .string "x")], none⟩
      = .err (.option ⟨"unknown", .unknownSubcommand⟩) := by
  refine ⟨fun α variants resolved => rfl, rfl, rfl, ?_, rfl⟩
  intro α variants o rest resolved h
  simp [enum_from_interaction, h]

/-- Witness for C3's general unknown-subcommand clause at a concrete
input: no variant of the scenario enum is named `unknown2`. -/
theorem subcommand_enum_dispatch_witness :
    enum_from_interaction [oneVariant, groupVariant]
        ⟨[(("unknown2" : String), CommandOptionValue.integer 0)], none⟩
      = .err (.option ⟨"unknown2", .unknownSubcommand⟩) :=
  subcommand_enum_dispatch.2.2.2.1 _ [oneVariant, groupVariant]
    ("unknown2", CommandOptionValue.integer 0) [] none rfl

/-- C10: the generated subcommand enum parser inspects only the first
option of a non-empty option list: the parse result is unchanged under
arbitrary replacement of the remaining options, so it depends only on
the first option, the variant list and the resolved-entity table. -/
theorem subcommand_enum_first_option_only :
    ∀ (α : Type) (variants : List (EnumVariantRT α)) (o : CommandDataOption)
      (rest rest' : List CommandDataOption)
      (resolved : Option InteractionDataResolved),
      enum_from_interaction variants ⟨o :: rest, resolved⟩
        = enum_from_interaction variants ⟨o :: rest', resolved⟩ :=
  fun _ _ _ _ _ _ => rfl

/-- Derive-side parsed struct field (`StructField` from
`derive/src/command/model/parse.rs`), reduced to what
`check_fields_order` consumes: the identifier and the classification
(the source also carries span, type and attributes, none of which the
ordering check reads). -/
structure StructField where
  ident : String
  kind : FieldType
  deriving Repr

/-- Loop body of `check_fields_order`
(`derive/src/command/model/create_command.rs` lines 205-222): walk the
fields with an `optional_option_added` flag; the flag is set at the
first non-required field; a required field seen while the flag is set
is the ordering error. In the source the flag update
(`!optional_option_added && !field.kind.required()`) precedes the check
(`optional_option_added && field.kind.required()`); since the updated
flag is `optional_option_added || !required`, the check is equivalent
to testing the pre-update flag against a required field, as done
here after the update. -/
def checkFieldsOrderGo (optionalAdded : Bool) : List StructField → Except Unit Unit
  | [] => .ok ()
  | f :: rest =>
    let optionalAdded := optionalAdded || !f.kind.isRequired
    if optionalAdded && f.kind.isRequired then .error ()
    else checkFieldsOrderGo optionalAdded rest

/-- `check_fields_order` from
`derive/src/command/model/create_command.rs`: the error payload is the
diagnostic "required options should be added before optional",
modelled as the unique error value. -/
def check_fields_order (fields : List StructField) : Except Unit Unit :=
  checkFieldsOrderGo false fields

/-- Characterisation of the ordering walk: starting with a clear flag,
it succeeds exactly when no non-required field is followed by a
required one; starting with a set flag, exactly when no field at all is
required. -/
theorem checkFieldsOrderGo_ok (fields : List StructField) :
    ∀ optionalAdded : Bool,
      checkFieldsOrderGo optionalAdded fields = .ok () ↔
        (List.Pairwise
          (fun a b => b.kind.isRequired = true → a.kind.isRequired = true) fields ∧
          (optionalAdded = true → ∀ f ∈ fields, f.kind.isRequired = false)) := by
  induction fields with
  | nil => intro a; simp [checkFieldsOrderGo]
  | cons f rest ih =>
    intro a
    cases hr : f.kind.isRequired with
    | true =>
      cases a with
      | false =>
        simp [checkFieldsOrderGo, hr, ih false, List.pairwise_cons]
      | true =>
        simp [checkFieldsOrderGo, hr]
    | false =>
      simp [checkFieldsOrderGo, hr, ih true, List.pairwise_cons]
      tauto

/-- The ordering walk either succeeds or reports the (unique) ordering
error. -/
theorem checkFieldsOrderGo_total (fields : List StructField) :
    ∀ optionalAdded : Bool,
      checkFieldsOrderGo optionalAdded fields = .ok () ∨
      checkFieldsOrderGo optionalAdded fields = .error () := by
  induction fields with
  | nil => intro a; left; rfl
  | cons f rest ih =>
    intro a
    simp only [checkFieldsOrderGo]
    by_cases h : ((a || !f.kind.isRequired) && f.kind.isRequired) = true
    · right; simp [h]
    · simpa [h] using ih (a || !f.kind.isRequired)

/-- C5: `check_fields_order` fails with the required-before-optional
ordering error exactly when some non-required (Optional or
Autocomplete) field is followed, later in the declaration order, by a
Required field; equivalently, it succeeds exactly when all Required
fields precede all non-Required fields. -/
theorem required_before_optional_ordering :
    ∀ fields : List StructField,
      (check_fields_order fields = .ok () ↔
        ∀ (i j : Fin fields.length), i < j →
          ¬((fields.get i).kind.isRequired = false ∧
            (fields.get j).kind.isRequired = true)) ∧
      (check_fields_order fields ≠ .ok () →
        check_fields_order fields = .error ()) := by
  intro fields
  constructor
  · rw [check_fields_order, checkFieldsOrderGo_ok fields false]
    simp only [Bool.false_eq_true, false_implies, and_true]
    rw [List.pairwise_iff_get]
    constructor
    · intro h i j hij ⟨h₁, h₂⟩
      rw [h i j hij h₂] at h₁; exact absurd h₁ (by simp)
    · intro h i j hij hj
      by_contra hi
      exact h i j hij ⟨by cases h' : (fields.get i).kind.isRequired with
        | false => rfl
        | true => exact absurd h' hi, hj⟩
  · intro h
    rcases checkFieldsOrderGo_total fields false with h' | h'
    · exact absurd h' h
    · exact h'

/-- Witness for C5 at concrete inputs: `[optional, required]` fails
with the ordering error, `[required, optional]` succeeds. -/
theorem required_before_optional_ordering_witness :
    check_fields_order [⟨"a", .optional⟩, ⟨"b", .required⟩] = .error () ∧
    check_fields_order [⟨"b", .required⟩, ⟨"a", .optional⟩] = .ok () := by
  constructor
  · exact (required_before_optional_ordering
      [⟨"a", .optional⟩, ⟨"b", .required⟩]).2 (fun h => Except.noConfusion h)
  · exact (required_before_optional_ordering
      [⟨"b", .required⟩, ⟨"a", .optional⟩]).1.mpr (by decide)

/-- Choice value kinds (`ChoiceKind` from `derive/src/option`). -/
inductive ChoiceKind where
  | string
  | integer
  | number
  deriving DecidableEq, Repr

/-- Structured stand-ins for the `syn::Error` diagnostics produced by
the derive crate (each constructor corresponds to one distinct
diagnostic message). -/
inductive DeriveError where
  | nameLength
  | nameInvalidChar (c : Char)
  | nameNotLowercase (c : Char)
  | atLeastOneVariant
  | invalidAttributeType
  | expectedKind (k : ChoiceKind)
  | choiceNameLength
  | modalFieldCount
  | missingModalAttribute
  | missingTitle
  deriving DecidableEq, Repr

/-- `str::trim`: drop whitespace characters from both ends. The Rust
`char::is_whitespace` predicate is approximated by `Char.isWhitespace`
(they agree on ASCII). Strings are modelled as their scalar-value
sequences (`chars()`). -/
def rustTrim (s : List Char) : List Char :=
  ((s.dropWhile Char.isWhitespace).reverse.dropWhile Char.isWhitespace).reverse

/-- The per-character loop of `CommandName::parse_attribute`
(`derive/src/parse/parsers.rs` lines 40-66), parametrised by Rust's
Unicode classification functions: `isAlnum c` models
`c.is_alphanumeric()` and `lowEq c` models
`c.to_lowercase().to_string() == c.to_string()`. A character neither
alphanumeric nor `-`/`_` is an invalid-character error; a character not
already lowercase is a not-lowercase error; the first offender wins. -/
def checkNameChars (isAlnum lowEq : Char → Bool) : List Char → Except DeriveError Unit
  | [] => .ok ()
  | c :: rest =>
    if !isAlnum c && !(c == '-') && !(c == '_') then .error (.nameInvalidChar c)
    else if !lowEq c then .error (.nameNotLowercase c)
    else checkNameChars isAlnum lowEq rest

/-- `CommandName::parse_attribute` (`derive/src/parse/parsers.rs` lines
40-66): trim the attribute string, require the trimmed length to be
1..=32 scalar values, then run the per-character loop; on success the
trimmed value is the parsed name. -/
def CommandName.parse_attribute (isAlnum lowEq : Char → Bool) (input : List Char) :
    Except DeriveError (List Char) :=
  if 1 ≤ (rustTrim input).length ∧ (rustTrim input).length ≤ 32 then
    match checkNameChars isAlnum lowEq (rustTrim input) with
    | .ok () => .ok (rustTrim input)
    | .error e => .error e
  else .error .nameLength

/-- The character loop succeeds exactly when every character is
alphanumeric or `-` or `_` and already lowercase. -/
theorem checkNameChars_ok (isAlnum lowEq : Char → Bool) :
    ∀ cs : List Char,
      checkNameChars isAlnum lowEq cs = .ok () ↔
        ∀ c ∈ cs, (isAlnum c = true ∨ c = '-' ∨ c = '_') ∧ lowEq c = true := by
  intro cs
  induction cs with
  | nil => simp [checkNameChars]
  | cons c rest ih =>
    by_cases h1 : isAlnum c = true
    · by_cases h2 : lowEq c = true
      · simp [checkNameChars, h1, h2, ih]
      · simp only [Bool.not_eq_true] at h2
        simp [checkNameChars, h1, h2]
    · simp only [Bool.not_eq_true] at h1
      by_cases hd1 : c = '-'
      · subst hd1
        by_cases h2 : lowEq '-' = true
        · simp [checkNameChars, h1, h2, ih]
        · simp only [Bool.not_eq_true] at h2
          simp [checkNameChars, h1, h2]
      · by_cases hd2 : c = '_'
        · subst hd2
          by_cases h2 : lowEq '_' = true
          · simp [checkNameChars, h1, h2, ih]
          · simp only [Bool.not_eq_true] at h2
            simp [checkNameChars, h1, h2]
        · simp [checkNameChars, h1, hd1, hd2]

/-- C4 counterexample to the claim as stated: with Rust's character
classes instantiated on ASCII (`Char.isAlphanum`; lowercase self-map
`c.toLower == c`), the attribute value `"a "` (chars `['a', ' ']`)
contains a space, which is neither alphanumeric nor `-` nor `_`, so by
the claim validation must fail; the parser nevertheless succeeds
(returning the name `"a"`), because it trims the value before
validating. -/
theorem name_validation_counterexample :
    CommandName.parse_attribute Char.isAlphanum (fun c => c.toLower == c)
        ['a', ' '] = .ok ['a'] ∧
    ' ' ∈ ['a', ' '] ∧
    (Char.isAlphanum ' ' || (' ' == '-') || (' ' == '_')) = false :=
  ⟨rfl, by decide, by decide⟩

/-- C4 amended: name validation succeeds exactly when, after trimming
leading and trailing whitespace from the attribute value, the trimmed
value's length is between 1 and 32 scalar values, every trimmed
character is alphanumeric or `-` or `_`, and every trimmed character
is already in its lowercased form (`lowEq`); the parsed name is the
trimmed value. Stated for every instantiation of Rust's
`char::is_alphanumeric` and `to_lowercase` self-comparison. -/
theorem name_validation_after_trim :
    ∀ (isAlnum lowEq : Char → Bool) (input : List Char),
      (∃ v, CommandName.parse_attribute isAlnum lowEq input = .ok v) ↔
        (1 ≤ (rustTrim input).length ∧ (rustTrim input).length ≤ 32 ∧
          ∀ c ∈ rustTrim input,
            (isAlnum c = true ∨ c = '-' ∨ c = '_') ∧ lowEq c = true) := by
  intro isAlnum lowEq input
  by_cases hlen : 1 ≤ (rustTrim input).length ∧ (rustTrim input).length ≤ 32
  · cases hc : checkNameChars isAlnum lowEq (rustTrim input) with
    | ok u =>
      cases u
      constructor
      · intro _
        exact ⟨hlen.1, hlen.2, (checkNameChars_ok _ _ _).mp hc⟩
      · intro _
        refine ⟨rustTrim input, ?_⟩
        rw [CommandName.parse_attribute, if_pos hlen, hc]
    | error e =>
      constructor
      · rintro ⟨v, hv⟩
        rw [CommandName.parse_attribute, if_pos hlen, hc] at hv
        exact Except.noConfusion hv
      · intro hall
        rw [(checkNameChars_ok _ _ _).mpr hall.2.2] at hc
        exact Except.noConfusion hc
  · constructor
    · rintro ⟨v, hv⟩
      rw [CommandName.parse_attribute, if_neg hlen] at hv
      exact Except.noConfusion hv
    · rintro ⟨h₁, h₂, -⟩
      exact absurd ⟨h₁, h₂⟩ hlen

/-- Witness for C4's amended characterisation at a concrete input:
`['h', 'i']` validates. -/
theorem name_validation_after_trim_witness :
    ∃ v, CommandName.parse_attribute Char.isAlphanum (fun c => c.toLower == c)
        ['h', 'i'] = .ok v :=
  (name_validation_after_trim Char.isAlphanum (fun c => c.toLower == c)
    ['h', 'i']).mpr (by decide)

/-- Derive-side parsed modal field (`StructField` from
`derive/src/modal/parse.rs`), reduced to what the modal schema builder
reads for the embedded claims: identifier and label. -/
structure ModalField where
  ident : String
  label : String
  deriving DecidableEq, Repr

/-- Modal type attribute (`TypeAttribute` from
`derive/src/modal/parse.rs`): may carry a `title`. -/
structure ModalTypeAttribute where
  title : Option String
  deriving DecidableEq, Repr

/-- The text-input descriptor emitted per modal field (the
`TextInput` component of `field_component`), reduced to the parts the
claims observe. -/
structure TextInputDescriptor where
  custom_id : String
  label : String
  deriving DecidableEq, Repr

/-- Generated modal schema output (`ModalData`), reduced to title and
component list. -/
structure ModalData where
  title : String
  components : List TextInputDescriptor
  deriving DecidableEq, Repr

/-- `field_component` from `derive/src/modal/create_modal.rs`: the
custom identifier defaults to the field's own identifier
(`custom_id_default`). -/
def field_component (f : ModalField) : TextInputDescriptor :=
  ⟨f.ident, f.label⟩

/-- `impl_create_modal` from `derive/src/modal/create_modal.rs` lines
9-60: after the fields are parsed, the field count must satisfy
`(1..=5).contains(&capacity)` (else the field-count-ceiling error
"modal can have at most five fields"); then the `#[modal(...)]`
attribute must be present and carry a `title`; the builder then emits
one wrapped text-input component per field in declaration order. -/
def impl_create_modal (fields : List ModalField)
    (attr : Option ModalTypeAttribute) : Except DeriveError ModalData :=
  if ¬(1 ≤ fields.length ∧ fields.length ≤ 5) then .error .modalFieldCount
  else
    match attr with
    | none => .error .missingModalAttribute
    | some a =>
      match a.title with
      | none => .error .missingTitle
      | some t => .ok ⟨t, fields.map field_component⟩

/-- C9: modal derivation succeeds only when the field count is between
1 and 5 inclusive, and any count outside that range fails with the
field-count-ceiling error. Concretely, a modal with 6 labeled fields
fails with the field-count error, and one with 5 fields (and a titled
`#[modal]` attribute) succeeds. -/
theorem modal_field_count_ceiling :
    (∀ (fields : List ModalField) (attr : Option ModalTypeAttribute),
      (∃ d, impl_create_modal fields attr = .ok d) →
        1 ≤ fields.length ∧ fields.length ≤ 5) ∧
    (∀ (fields : List ModalField) (attr : Option ModalTypeAttribute),
      ¬(1 ≤ fields.length ∧ fields.length ≤ 5) →
        impl_create_modal fields attr = .error .modalFieldCount) ∧
    impl_create_modal
        [⟨"f1", "l"⟩, ⟨"f2", "l"⟩, ⟨"f3", "l"⟩, ⟨"f4", "l"⟩, ⟨"f5", "l"⟩,
          ⟨"f6", "l"⟩]
        (some ⟨some "title"⟩)
      = .error .modalFieldCount ∧
    impl_create_modal
        [⟨"f1", "l"⟩, ⟨"f2", "l"⟩, ⟨"f3", "l"⟩, ⟨"f4", "l"⟩, ⟨"f5", "l"⟩]
        (some ⟨some "title"⟩)
      = .ok ⟨"title",
          [⟨"f1", "l"⟩, ⟨"f2", "l"⟩, ⟨"f3", "l"⟩, ⟨"f4", "l"⟩, ⟨"f5", "l"⟩]⟩ := by
  refine ⟨?_, ?_, rfl, rfl⟩
  · intro fields attr ⟨d, hd⟩
    by_contra h
    rw [impl_create_modal.eq_def, if_pos h] at hd
    exact Except.noConfusion hd
  · intro fields attr h
    rw [impl_create_modal.eq_def, if_pos h]

/-- Witness for C9's general clauses at concrete inputs: the empty
field list is rejected with the field-count error, and a successful
one-field derivation certifies the count bound. -/
theorem modal_field_count_ceiling_witness :
    (1 ≤ ([⟨"f1", "l"⟩] : List ModalField).length ∧
      ([⟨"f1", "l"⟩] : List ModalField).length ≤ 5) ∧
    impl_create_modal ([] : List ModalField) none = .error .modalFieldCount :=
  ⟨modal_field_count_ceiling.1 [⟨"f1", "l"⟩] (some ⟨some "t"⟩)
      ⟨⟨"t", [⟨"f1", "l"⟩]⟩, rfl⟩,
    modal_field_count_ceiling.2.1 [] none (by simp)⟩

/-- Parsed choice value (`ChoiceValue` from
`derive/src/option/parse.rs` / `option/attributes.rs`). -/
inductive ChoiceValue where
  | str (s : String)
  | int (i : Int)
  | num (q : Rat)
  deriving DecidableEq, Repr

/-- `ChoiceValue::kind`. -/
def ChoiceValue.kind : ChoiceValue → ChoiceKind
  | .str _ => .string
  | .int _ => .integer
  | .num _ => .number

/-- A variant's `value` attribute literal (`syn::Lit`): string, integer
or float literals are valid choice values; `other` stands for any other
literal kind (bool, byte string, ...). -/
inductive AttrLit where
  | str (s : String)
  | int (i : Int)
  | float (q : Rat)
  | other
  deriving DecidableEq, Repr

/-- The choice kind a literal would induce (none for invalid literal
kinds). -/
def AttrLit.litKind : AttrLit → Option ChoiceKind
  | .str _ => some .string
  | .int _ => some .integer
  | .float _ => some .number
  | .other => none

/-- `ChoiceValue::parse` (`derive/src/option/parse.rs` lines 128-152):
convert the literal (string/integer/float, else the invalid-attribute
error), then if an expected kind was supplied, require the parsed kind
to match it or fail with the expected-kind error naming the expected
kind. -/
def ChoiceValue.parse (val : AttrLit) (kind : Option ChoiceKind) :
    Except DeriveError ChoiceValue :=
  match (match val with
      | .str s => some (ChoiceValue.str s)
      | .int i => some (ChoiceValue.int i)
      | .float q => some (ChoiceValue.num q)
      | .other => none) with
  | none => .error .invalidAttributeType
  | some parsed =>
    match kind with
    | some k => if parsed.kind = k then .ok parsed else .error (.expectedKind k)
    | none => .ok parsed

/-- Choice display-name validation (`parse_name` in
`derive/src/option/parse.rs`): 1..=100 scalar values. -/
def parse_name (s : String) : Except DeriveError String :=
  if 1 ≤ s.length ∧ s.length ≤ 100 then .ok s else .error .choiceNameLength

/-- Syntactic input of one choice enum variant: identifier, the
`name` attribute string and the `value` attribute literal (the
unit-variant shape and attribute presence checks of `from_variant` are
prior syntactic stages kept implicit in this record). -/
structure VariantSyn where
  ident : String
  name : String
  value : AttrLit
  deriving DecidableEq, Repr

/-- Parsed variant attribute (`VariantAttribute` from
`derive/src/option`). -/
structure VariantAttribute where
  name : String
  value : ChoiceValue
  deriving DecidableEq, Repr

/-- `VariantAttribute::parse`: the name is parsed before the value, each
failure propagating immediately. -/
def VariantAttribute.parse (v : VariantSyn) (kind : Option ChoiceKind) :
    Except DeriveError VariantAttribute :=
  match parse_name v.name with
  | .error e => .error e
  | .ok name =>
    match ChoiceValue.parse v.value kind with
    | .error e => .error e
    | .ok value => .ok ⟨name, value⟩

/-- Parsed choice variant (`ParsedVariant` from `derive/src/option`);
the source field `attribute` is named `attr` here (`attribute` is a
keyword). -/
structure ParsedVariant where
  ident : String
  attr : VariantAttribute
  kind : ChoiceKind
  deriving DecidableEq, Repr

/-- `ParsedVariant::from_variant`: parse the attribute (against the
expected kind when one is already inferred) and record the variant's
own value kind. -/
def ParsedVariant.from_variant (v : VariantSyn) (kind : Option ChoiceKind) :
    Except DeriveError ParsedVariant :=
  match VariantAttribute.parse v kind with
  | .error e => .error e
  | .ok a => .ok ⟨v.ident, a, a.value.kind⟩

/-- The tail loop of `ParsedVariant::from_variants`: every remaining
variant is parsed against the kind inferred from the first variant. -/
def fromVariantsGo (k : ChoiceKind) :
    List VariantSyn → Except DeriveError (List ParsedVariant)
  | [] => .ok []
  | v :: rest =>
    match ParsedVariant.from_variant v (some k) with
    | .error e => .error e
    | .ok p =>
      match fromVariantsGo k rest with
      | .error e => .error e
      | .ok ps => .ok (p :: ps)

/-- `ParsedVariant::from_variants` (`derive/src/option/parse.rs` lines
18-43): an empty enum is the at-least-one-variant error; the first
variant is parsed with no expected kind and its kind is inferred; every
other variant is parsed against that inferred kind; the inferred kind
is returned alongside the parsed variants. -/
def ParsedVariant.from_variants (vs : List VariantSyn) :
    Except DeriveError (List ParsedVariant × ChoiceKind) :=
  match vs with
  | [] => .error .atLeastOneVariant
  | first :: rest =>
    match ParsedVariant.from_variant first none with
    | .error e => .error e
    | .ok f =>
      match fromVariantsGo f.kind rest with
      | .error e => .error e
      | .ok ps => .ok (f :: ps, f.kind)

/-- A well-formed variant input: valid display-name length and a
string/integer/float value literal. Isolates C6's kind-consistency
question from the orthogonal name-length and literal-kind failure
paths. -/
def WFVariant (v : VariantSyn) : Prop :=
  (1 ≤ v.name.length ∧ v.name.length ≤ 100) ∧ v.value ≠ AttrLit.other

/-- For a well-formed variant checked against an expected kind:
parsing succeeds iff the literal's kind matches, and a mismatch is the
expected-kind error naming the expected kind. -/
theorem from_variant_checked (v : VariantSyn) (k : ChoiceKind) (hwf : WFVariant v) :
    (v.value.litKind = some k ∧
      ∃ p, ParsedVariant.from_variant v (some k) = .ok p) ∨
    (v.value.litKind ≠ some k ∧
      ParsedVariant.from_variant v (some k) = .error (.expectedKind k)) := by
  obtain ⟨hname, hval⟩ := hwf
  cases hv : v.value with
  | other => exact absurd hv hval
  | str s =>
    cases k with
    | string =>
      exact Or.inl ⟨by simp [AttrLit.litKind], ⟨v.ident, ⟨v.name, .str s⟩, .string⟩,
        by simp [ParsedVariant.from_variant, VariantAttribute.parse, parse_name,
          hname, ChoiceValue.parse, hv, ChoiceValue.kind]⟩
    | integer =>
      exact Or.inr ⟨by simp [AttrLit.litKind],
        by simp [ParsedVariant.from_variant, VariantAttribute.parse, parse_name,
          hname, ChoiceValue.parse, hv, ChoiceValue.kind]⟩
    | number =>
      exact Or.inr ⟨by simp [AttrLit.litKind],
        by simp [ParsedVariant.from_variant, VariantAttribute.parse, parse_name,
          hname, ChoiceValue.parse, hv, ChoiceValue.kind]⟩
  | int i =>
    cases k with
    | integer =>
      exact Or.inl ⟨by simp [AttrLit.litKind], ⟨v.ident, ⟨v.name, .int i⟩, .integer⟩,
        by simp [ParsedVariant.from_variant, VariantAttribute.parse, parse_name,
          hname, ChoiceValue.parse, hv, ChoiceValue.kind]⟩
    | string =>
      exact Or.inr ⟨by simp [AttrLit.litKind],
        by simp [ParsedVariant.from_variant, VariantAttribute.parse, parse_name,
          hname, ChoiceValue.parse, hv, ChoiceValue.kind]⟩
    | number =>
      exact Or.inr ⟨by simp [AttrLit.litKind],
        by simp [ParsedVariant.from_variant, VariantAttribute.parse, parse_name,
          hname, ChoiceValue.parse, hv, ChoiceValue.kind]⟩
  | float q =>
    cases k with
    | number =>
      exact Or.inl ⟨by simp [AttrLit.litKind], ⟨v.ident, ⟨v.name, .num q⟩, .number⟩,
        by simp [ParsedVariant.from_variant, VariantAttribute.parse, parse_name,
          hname, ChoiceValue.parse, hv, ChoiceValue.kind]⟩
    | string =>
      exact Or.inr ⟨by simp [AttrLit.litKind],
        by simp [ParsedVariant.from_variant, VariantAttribute.parse, parse_name,
          hname, ChoiceValue.parse, hv, ChoiceValue.kind]⟩
    | integer =>
      exact Or.inr ⟨by simp [AttrLit.litKind],
        by simp [ParsedVariant.from_variant, VariantAttribute.parse, parse_name,
          hname, ChoiceValue.parse, hv, ChoiceValue.kind]⟩

/-- The tail loop over well-formed variants succeeds iff every literal
kind matches the inferred kind, and fails with the expected-kind error
on a mismatch. -/
theorem fromVariantsGo_spec (k : ChoiceKind) :
    ∀ vs : List VariantSyn, (∀ v ∈ vs, WFVariant v) →
      ((∃ ps, fromVariantsGo k vs = .ok ps) ↔
        ∀ v ∈ vs, v.value.litKind = some k) ∧
      ((∃ v ∈ vs, v.value.litKind ≠ some k) →
        fromVariantsGo k vs = .error (.expectedKind k)) := by
  intro vs
  induction vs with
  | nil =>
    intro _
    exact ⟨by simp [fromVariantsGo], by simp⟩
  | cons v rest ih =>
    intro hwf
    obtain ⟨ihiff, iherr⟩ := ih (fun w hw => hwf w (List.mem_cons_of_mem _ hw))
    rcases from_variant_checked v k (hwf v (List.mem_cons_self _ _)) with
      ⟨hk, p, hp⟩ | ⟨hk, hp⟩
    · constructor
      · constructor
        · rintro ⟨ps, hps⟩
          rw [fromVariantsGo, hp] at hps
          intro w hw
          rcases List.mem_cons.mp hw with rfl | hmem
          · exact hk
          · cases hgo : fromVariantsGo k rest with
            | error e => rw [hgo] at hps; exact Except.noConfusion hps
            | ok ps' => exact ihiff.mp ⟨ps', hgo⟩ w hmem
        · intro hall
          obtain ⟨ps, hps⟩ := ihiff.mpr (fun w hw => hall w (List.mem_cons_of_mem _ hw))
          exact ⟨p :: ps, by rw [fromVariantsGo, hp, hps]⟩
      · rintro ⟨w, hw, hkw⟩
        rcases List.mem_cons.mp hw with rfl | hmem
        · exact absurd hk hkw
        · rw [fromVariantsGo, hp, iherr ⟨w, hmem, hkw⟩]
    · constructor
      · constructor
        · rintro ⟨ps, hps⟩
          rw [fromVariantsGo, hp] at hps
          exact absurd hps (by simp)
        · intro hall
          exact absurd (hall v (List.mem_cons_self _ _)) hk
      · intro _
        rw [fromVariantsGo, hp]

/-- C6: choice enum derivation: an empty enum fails with the
at-least-one-variant error; otherwise the value kind is inferred from
the first variant's literal, derivation succeeds iff every subsequent
variant's literal has that same kind (returning that inferred kind),
and the first subsequent variant with a different literal kind makes
derivation fail with the kind-mismatch error naming the expected
(inferred) kind. Stated over well-formed variant inputs (valid name
lengths, proper literals), isolating the kind question from the
orthogonal name/literal failure paths. -/
theorem choice_kind_inference :
    ParsedVariant.from_variants [] = .error .atLeastOneVariant ∧
    (∀ (first : VariantSyn) (rest : List VariantSyn),
      (∀ v ∈ first :: rest, WFVariant v) →
      ∃ k0, first.value.litKind = some k0 ∧
        ((∃ r, ParsedVariant.from_variants (first :: rest) = .ok r ∧ r.2 = k0) ↔
          ∀ v ∈ rest, v.value.litKind = some k0) ∧
        ((∃ v ∈ rest, v.value.litKind ≠ some k0) →
          ParsedVariant.from_variants (first :: rest)
            = .error (.expectedKind k0))) := by
  refine ⟨rfl, ?_⟩
  intro first rest hwf
  have hwfF := hwf first (List.mem_cons_self _ _)
  have hwfR : ∀ v ∈ rest, WFVariant v :=
    fun v hv => hwf v (List.mem_cons_of_mem _ hv)
  obtain ⟨hname, hval⟩ := hwfF
  -- parse the first variant with no expected kind: succeeds for any
  -- proper literal and its kind is the literal's kind
  obtain ⟨f, hf, hfk⟩ : ∃ f, ParsedVariant.from_variant first none = .ok f ∧
      some f.kind = first.value.litKind := by
    cases hv : first.value with
    | other => exact absurd hv hval
    | str s =>
      exact ⟨⟨first.ident, ⟨first.name, .str s⟩, .string⟩,
        by simp [ParsedVariant.from_variant, VariantAttribute.parse, parse_name,
          hname, ChoiceValue.parse, hv, ChoiceValue.kind],
        by simp [AttrLit.litKind, ChoiceValue.kind]⟩
    | int i =>
      exact ⟨⟨first.ident, ⟨first.name, .int i⟩, .integer⟩,
        by simp [ParsedVariant.from_variant, VariantAttribute.parse, parse_name,
          hname, ChoiceValue.parse, hv, ChoiceValue.kind],
        by simp [AttrLit.litKind, ChoiceValue.kind]⟩
    | float q =>
      exact ⟨⟨first.ident, ⟨first.name, .num q⟩, .number⟩,
        by simp [ParsedVariant.from_variant, VariantAttribute.parse, parse_name,
          hname, ChoiceValue.parse, hv, ChoiceValue.kind],
        by simp [AttrLit.litKind, ChoiceValue.kind]⟩
  obtain ⟨hgoiff, hgoerr⟩ := fromVariantsGo_spec f.kind rest hwfR
  refine ⟨f.kind, hfk.symm, ?_, ?_⟩
  · constructor
    · rintro ⟨r, hr, hrk⟩
      intro v hv
      cases hgo : fromVariantsGo f.kind rest with
      | error e => simp [ParsedVariant.from_variants, hf, hgo] at hr
      | ok ps => exact hgoiff.mp ⟨ps, hgo⟩ v hv
    · intro hall
      obtain ⟨ps, hps⟩ := hgoiff.mpr hall
      exact ⟨(f :: ps, f.kind),
        by simp [ParsedVariant.from_variants, hf, hps], rfl⟩
  · intro hex
    simp [ParsedVariant.from_variants, hf, hgoerr hex]

/-- Witness for C6 at concrete inputs: `[Minute = 60, Hour = "x"]`
(an integer first variant, then a string literal) fails with the
expected-kind error naming integer, while `[Minute = 60, Hour = 3600]`
succeeds with inferred kind integer. -/
theorem choice_kind_inference_witness :
    ∃ k0, (AttrLit.int 60).litKind = some k0 ∧
      ((∃ r, ParsedVariant.from_variants
          [⟨"Minute", "Minute", .int 60⟩, ⟨"Hour", "Hour", .str "x"⟩]
        = .ok r ∧ r.2 = k0) ↔
        ∀ v ∈ [(⟨"Hour", "Hour", .str "x"⟩ : VariantSyn)],
          v.value.litKind = some k0) ∧
      ((∃ v ∈ [(⟨"Hour", "Hour", .str "x"⟩ : VariantSyn)],
          v.value.litKind ≠ some k0) →
        ParsedVariant.from_variants
            [⟨"Minute", "Minute", .int 60⟩, ⟨"Hour", "Hour", .str "x"⟩]
          = .error (.expectedKind k0)) :=
  choice_kind_inference.2 ⟨"Minute", "Minute", .int 60⟩
    [⟨"Hour", "Hour", .str "x"⟩]
    (by
      intro v hv
      rcases List.mem_cons.mp hv with rfl | hv'
      · exact ⟨⟨by decide, by decide⟩, by decide⟩
      · rcases List.mem_singleton.mp hv' with rfl
        exact ⟨⟨by decide, by decide⟩, by decide⟩)

/-- `f64::EPSILON`, the machine epsilon of binary64, as an exact
rational: 2^-52. -/
def f64Epsilon : Rat := 1 / 2 ^ 52

/-- The match arms emitted by `variant_match_arm`
(`derive/src/option/command_option.rs` lines 93-107) for an
integer-kind choice enum: arms in variant declaration order, each
matching its variant's literal by direct equality; the final arm is the
invalid-choice error carrying `ToString::to_string` of the unmatched
value. -/
def choiceMatchInt (variants : List (String × Int)) (parsed : Int) :
    OptResult String :=
  match variants with
  | [] => .err (.invalidChoice (toString parsed))
  | (ident, lit) :: rest =>
    if parsed = lit then .ok ident else choiceMatchInt rest parsed

/-- Match arms for a string-kind choice enum (`parsed.as_str()` against
each string literal, direct equality). -/
def choiceMatchStr (variants : List (String × String)) (parsed : String) :
    OptResult String :=
  match variants with
  | [] => .err (.invalidChoice parsed)
  | (ident, lit) :: rest =>
    if parsed = lit then .ok ident else choiceMatchStr rest parsed

/-- Match arms for a float-kind choice enum: each arm is the guard
`val if (val - lit).abs() < f64::EPSILON` (the implementation documents
avoiding direct `==` on floats). -/
def choiceMatchNum (variants : List (String × Rat)) (parsed : Rat) :
    OptResult String :=
  match variants with
  | [] => .err (.invalidChoice (toString parsed))
  | (ident, lit) :: rest =>
    if |parsed - lit| < f64Epsilon then .ok ident else choiceMatchNum rest parsed

/-- The generated `CommandOption::from_option` of an integer choice
enum (`impl_command_option` in `derive/src/option/command_option.rs`
lines 10-49): `parsed_init` coerces the wire value to the base type via
`<i64 as CommandOption>::from_option` (propagating its errors via `?`),
then the coerced value is matched against the variant literals. The
generated coercion call passes no constraint bundle, so the runtime
impl receives the default (empty) `CommandOptionData`, under which its
bounds branches are inactive. -/
def choice_from_option_int (variants : List (String × Int))
    (value : CommandOptionValue) : OptResult String :=
  match i64.from_option value {} with
  | .ok v => choiceMatchInt variants v
  | .err e => .err e
  | .panic => .panic

/-- The generated `CommandOption::from_option` of a string choice
enum: coercion via `<String as CommandOption>::from_option` with the
default (empty) constraint bundle, then literal matching. -/
def choice_from_option_str (variants : List (String × String))
    (value : CommandOptionValue) : OptResult String :=
  match String.from_option value {} with
  | .ok v => choiceMatchStr variants v
  | .err e => .err e
  | .panic => .panic

/-- The generated `CommandOption::from_option` of a float choice enum:
coercion via `<f64 as CommandOption>::from_option`
(`src/command/command_model.rs` lines 507-532) with the default (empty)
constraint bundle, then the epsilon-guarded literal matching. -/
def choice_from_option_num (variants : List (String × Rat))
    (value : CommandOptionValue) : OptResult String :=
  match f64.from_option value {} with
  | .ok v => choiceMatchNum variants v
  | .err e => .err e
  | .panic => .panic

/-- An unmatched integer value falls through every arm to the
invalid-choice error. -/
theorem choiceMatchInt_unmatched :
    ∀ (variants : List (String × Int)) (v : Int),
      (∀ p ∈ variants, p.2 ≠ v) →
      choiceMatchInt variants v = .err (.invalidChoice (toString v)) := by
  intro variants v
  induction variants with
  | nil => intro _; rfl
  | cons p rest ih =>
    intro h
    obtain ⟨ident, lit⟩ := p
    have hne : v ≠ lit := fun hv =>
      (h (ident, lit) (List.mem_cons_self _ _)) hv.symm
    rw [choiceMatchInt, if_neg hne]
    exact ih (fun q hq => h q (List.mem_cons_of_mem _ hq))

/-- A successful integer lookup returns a variant whose literal equals
the wire value. -/
theorem choiceMatchInt_ok :
    ∀ (variants : List (String × Int)) (v : Int) (ident : String),
      choiceMatchInt variants v = .ok ident →
      ∃ p ∈ variants, p.1 = ident ∧ p.2 = v := by
  intro variants v ident
  induction variants with
  | nil => intro h; exact OptResult.noConfusion h
  | cons p rest ih =>
    intro h
    obtain ⟨id₀, lit⟩ := p
    by_cases hv : v = lit
    · rw [choiceMatchInt, if_pos hv] at h
      exact ⟨(id₀, lit), List.mem_cons_self _ _,
        (OptResult.ok.injEq _ _ ▸ h).symm ▸ rfl, hv.symm⟩
    · rw [choiceMatchInt, if_neg hv] at h
      obtain ⟨q, hq, hqi, hqv⟩ := ih h
      exact ⟨q, List.mem_cons_of_mem _ hq, hqi, hqv⟩

/-- An unmatched string value falls through to the invalid-choice
error. -/
theorem choiceMatchStr_unmatched :
    ∀ (variants : List (String × String)) (v : String),
      (∀ p ∈ variants, p.2 ≠ v) →
      choiceMatchStr variants v = .err (.invalidChoice v) := by
  intro variants v
  induction variants with
  | nil => intro _; rfl
  | cons p rest ih =>
    intro h
    obtain ⟨ident, lit⟩ := p
    have hne : v ≠ lit := fun hv =>
      (h (ident, lit) (List.mem_cons_self _ _)) hv.symm
    rw [choiceMatchStr, if_neg hne]
    exact ih (fun q hq => h q (List.mem_cons_of_mem _ hq))

/-- A number value within `f64::EPSILON` of no literal falls through to
the invalid-choice error, and a successful float lookup returns a
variant whose literal is within `f64::EPSILON` of the wire value. -/
theorem choiceMatchNum_spec :
    ∀ (variants : List (String × Rat)) (v : Rat),
      ((∀ p ∈ variants, ¬(|v - p.2| < f64Epsilon)) →
        choiceMatchNum variants v = .err (.invalidChoice (toString v))) ∧
      (∀ ident, choiceMatchNum variants v = .ok ident →
        ∃ p ∈ variants, p.1 = ident ∧ |v - p.2| < f64Epsilon) := by
  intro variants v
  induction variants with
  | nil =>
    exact ⟨fun _ => rfl, fun ident h => OptResult.noConfusion h⟩
  | cons p rest ih =>
    obtain ⟨id₀, lit⟩ := p
    constructor
    · intro h
      rw [choiceMatchNum, if_neg (h (id₀, lit) (List.mem_cons_self _ _))]
      exact ih.1 (fun q hq => h q (List.mem_cons_of_mem _ hq))
    · intro ident h
      by_cases hv : |v - lit| < f64Epsilon
      · rw [choiceMatchNum, if_pos hv] at h
        exact ⟨(id₀, lit), List.mem_cons_self _ _,
          (OptResult.ok.injEq _ _ ▸ h).symm ▸ rfl, hv⟩
      · rw [choiceMatchNum, if_neg hv] at h
        obtain ⟨q, hq, hqi, hqv⟩ := ih.2 ident h
        exact ⟨q, List.mem_cons_of_mem _ hq, hqi, hqv⟩

/-- The scenario choice enum: integer variants
`Minute = 60, Hour = 3600, Day = 86400`. -/
def timeUnitVariants : List (String × Int) :=
  [("Minute", 60), ("Hour", 3600), ("Day", 86400)]

/-- C7: the generated choice lookup coerces the wire value to the
inferred base type via that type's `CommandOption` impl (any other
wire kind is an invalid-type error) and matches it against the variant
literals in declaration order — strings and integers by direct
equality, floats by `(val - lit).abs() < f64::EPSILON` — failing with
an invalid-choice error when nothing matches. Concretely, for integer
variants `Minute = 60, Hour = 3600, Day = 86400`, the wire value
`3600` parses to `Hour` and `7200` fails with the invalid-choice
error. -/
theorem choice_value_lookup :
    choice_from_option_int timeUnitVariants (.integer 3600) = .ok "Hour" ∧
    choice_from_option_int timeUnitVariants (.integer 7200)
      = .err (.invalidChoice "7200") ∧
    (∀ (variants : List (String × Int)) (s : String),
      choice_from_option_int variants (.string s)
        = .err (.invalidType .string)) ∧
    (∀ (variants : List (String × Int)) (v : Int),
      (∀ p ∈ variants, p.2 ≠ v) →
        choice_from_option_int variants (.integer v)
          = .err (.invalidChoice (toString v))) ∧
    (∀ (variants : List (String × Int)) (v : Int) (ident : String),
      choice_from_option_int variants (.integer v) = .ok ident →
        ∃ p ∈ variants, p.1 = ident ∧ p.2 = v) ∧
    (∀ (variants : List (String × String)) (v : String),
      (∀ p ∈ variants, p.2 ≠ v) →
        choice_from_option_str variants (.string v)
          = .err (.invalidChoice v)) ∧
    (∀ (variants : List (String × Rat)) (v : Rat),
      ((∀ p ∈ variants, ¬(|v - p.2| < f64Epsilon)) →
        choice_from_option_num variants (.number v)
          = .err (.invalidChoice (toString v))) ∧
      (∀ ident, choice_from_option_num variants (.number v) = .ok ident →
        ∃ p ∈ variants, p.1 = ident ∧ |v - p.2| < f64Epsilon)) :=
  ⟨rfl, rfl, fun _ _ => rfl,
    fun variants v h => choiceMatchInt_unmatched variants v h,
    fun variants v ident h => choiceMatchInt_ok variants v ident h,
    fun variants v h => choiceMatchStr_unmatched variants v h,
    fun variants v => choiceMatchNum_spec variants v⟩

/-- Witness for C7's conditional clauses at concrete inputs: `7200`
matches no literal of the scenario enum and `"Hour"` is returned only
for the matching literal `3600`; a number within epsilon of a float
literal is found. -/
theorem choice_value_lookup_witness :
    choice_from_option_int timeUnitVariants (.integer 7200)
      = .err (.invalidChoice (toString (7200 : Int))) ∧
    (∃ p ∈ timeUnitVariants, p.1 = "Hour" ∧ p.2 = (3600 : Int)) ∧
    choice_from_option_str [("A", "a")] (.string "b")
      = .err (.invalidChoice "b") ∧
    (∃ p ∈ [(("Half" : String), (1/2 : Rat))], p.1 = "Half" ∧
      |(1/2 : Rat) - p.2| < f64Epsilon) :=
  ⟨choice_value_lookup.2.2.2.1 timeUnitVariants 7200 (by decide),
    choice_value_lookup.2.2.2.2.1 timeUnitVariants 3600 "Hour" rfl,
    choice_value_lookup.2.2.2.2.2.1 [("A", "a")] "b" (by
      intro p hp
      rcases List.mem_singleton.mp hp with rfl
      decide),
    (choice_value_lookup.2.2.2.2.2.2 [("Half", 1/2)] (1/2)).2 "Half" (by
      rw [show choice_from_option_num [("Half", 1/2)] (.number (1/2))
            = choiceMatchNum [("Half", 1/2)] (1/2) from rfl,
        choiceMatchNum, if_pos (by norm_num [f64Epsilon])])⟩

end Twilight
